import Mathlib

/-!
Verification development for the agent runtime (Go sources in `main.go` and
its second variant).  The definitions below are shallow embeddings of the
corresponding Go functions; each definition's doc comment names the source
symbol it embeds.  Machine words are modelled as `Nat` reduced modulo `2 ^ 32`
where overflow matters.
-/

namespace Agent

/-! ## Generic string helpers (Go `strings` package semantics) -/

/-- Does the first character list occur at the start of the second?
(Helper for `strContains`.) -/
def isStartOf : List Char → List Char → Bool
  | [], _ => true
  | _ :: _, [] => false
  | a :: as, b :: bs => a == b && isStartOf as bs

/-- Does the first character list occur anywhere (contiguously) inside the
second?  (Helper for `strContains`.) -/
def occursIn : List Char → List Char → Bool
  | pat, [] => isStartOf pat []
  | pat, b :: bs => isStartOf pat (b :: bs) || occursIn pat bs

/-- Embeds Go `strings.Contains(s, pat)`.  Character-level containment, which
agrees with Go's byte-level containment on valid UTF-8 strings because UTF-8
is self-synchronizing. -/
def strContains (s pat : String) : Bool :=
  occursIn pat.data s.data

/-- Split a character list at every whitespace character (producing empty
pieces between adjacent separators).  Helper for `goFields`. -/
def splitWsGo : List Char → List (List Char)
  | [] => [[]]
  | c :: cs =>
    if c.isWhitespace then [] :: splitWsGo cs
    else
      match splitWsGo cs with
      | [] => [[c]]
      | h :: t => (c :: h) :: t

/-- Embeds Go `strings.Fields`: the whitespace-separated fields of a string,
with empty pieces dropped. -/
def goFields (s : String) : List String :=
  ((splitWsGo s.data).filter (fun p => p ≠ [])).map List.asString

/-- Split a character list around each leftmost non-overlapping occurrence of
the (nonempty) separator; the fuel is the list length.  Helper for
`goSplit`. -/
def splitSepGo (sep : List Char) : Nat → List Char → List (List Char)
  | _, [] => [[]]
  | 0, l => [l]
  | fuel + 1, c :: cs =>
    if !sep.isEmpty && isStartOf sep (c :: cs) then
      [] :: splitSepGo sep fuel ((c :: cs).drop sep.length)
    else
      match splitSepGo sep fuel cs with
      | [] => [[c]]
      | h :: t => (c :: h) :: t

/-- Embeds Go `strings.Split(s, sep)` for a nonempty separator: the pieces of
`s` around each non-overlapping occurrence of `sep`, scanned from the left.
(Every call site in the embedded program passes a nonempty separator.) -/
def goSplit (sep s : String) : List String :=
  (splitSepGo sep.data s.data.length s.data).map List.asString

/-- Embeds Go `strings.TrimSpace`: strip leading and trailing whitespace. -/
def goTrimSpace (s : String) : String :=
  (((s.data.dropWhile Char.isWhitespace).reverse.dropWhile Char.isWhitespace).reverse).asString

/-- Embeds Go `strings.Join(parts, sep)`. -/
def goJoin (sep : String) : List String → String
  | [] => ""
  | [x] => x
  | x :: y :: rest => x ++ sep ++ goJoin sep (y :: rest)

/-! ## SHA-256 (embeds Go `crypto/sha256.Sum256`)

A full executable SHA-256 over byte lists, with 32-bit words represented as
`Nat` values reduced modulo `2 ^ 32`. -/

/-- Reduce modulo `2 ^ 32` (32-bit word wrap-around). -/
def w32 (n : Nat) : Nat := n % 4294967296

/-- 32-bit rotate right by `n`. -/
def rotr32 (n x : Nat) : Nat := w32 (x / 2 ^ n + x % 2 ^ n * 2 ^ (32 - n))

/-- 32-bit logical shift right by `n`. -/
def shr32 (n x : Nat) : Nat := x / 2 ^ n

/-- 32-bit bitwise complement. -/
def not32 (x : Nat) : Nat := Nat.xor x 4294967295

/-- SHA-256 round constants. -/
def sha256K : List Nat :=
  [1116352408, 1899447441, 3049323471, 3921009573, 961987163,
   1508970993, 2453635748, 2870763221, 3624381080, 310598401,
   607225278, 1426881987, 1925078388, 2162078206, 2614888103,
   3248222580, 3835390401, 4022224774, 264347078, 604807628,
   770255983, 1249150122, 1555081692, 1996064986, 2554220882,
   2821834349, 2952996808, 3210313671, 3336571891, 3584528711,
   113926993, 338241895, 666307205, 773529912, 1294757372,
   1396182291, 1695183700, 1986661051, 2177026350, 2456956037,
   2730485921, 2820302411, 3259730800, 3345764771, 3516065817,
   3600352804, 4094571909, 275423344, 430227734, 506948616,
   659060556, 883997877, 958139571, 1322822218, 1537002063,
   1747873779, 1955562222, 2024104815, 2227730452, 2361852424,
   2428436474, 2756734187, 3204031479, 3329325298]

/-- SHA-256 initial hash value. -/
def sha256H0 : List Nat :=
  [1779033703, 3144134277, 1013904242, 2773480762,
   1359893119, 2600822924, 528734635, 1541459225]

/-- SHA-256 big Sigma-0. -/
def bigS0 (x : Nat) : Nat := Nat.xor (Nat.xor (rotr32 2 x) (rotr32 13 x)) (rotr32 22 x)

/-- SHA-256 big Sigma-1. -/
def bigS1 (x : Nat) : Nat := Nat.xor (Nat.xor (rotr32 6 x) (rotr32 11 x)) (rotr32 25 x)

/-- SHA-256 small sigma-0. -/
def smS0 (x : Nat) : Nat := Nat.xor (Nat.xor (rotr32 7 x) (rotr32 18 x)) (shr32 3 x)

/-- SHA-256 small sigma-1. -/
def smS1 (x : Nat) : Nat := Nat.xor (Nat.xor (rotr32 17 x) (rotr32 19 x)) (shr32 10 x)

/-- Big-endian grouping of bytes into 32-bit words. -/
def bytesToWords : List Nat → List Nat
  | a :: b :: c :: d :: rest => (((a * 256 + b) * 256 + c) * 256 + d) :: bytesToWords rest
  | _ => []

/-- Extend the 16 chunk words to the 64-entry SHA-256 message schedule. -/
def extendW (w0 : Array Nat) : Array Nat :=
  (List.range 48).foldl
    (fun w j =>
      let i := j + 16
      let s0 := smS0 (w.getD (i - 15) 0)
      let s1 := smS1 (w.getD (i - 2) 0)
      w.push (w32 (w.getD (i - 16) 0 + s0 + w.getD (i - 7) 0 + s1)))
    w0

/-- One SHA-256 compression round on the 8-word working state. -/
def sha256Round (st : List Nat) (ki wi : Nat) : List Nat :=
  match st with
  | [a, b, c, d, e, f, g, h] =>
    let ch := Nat.xor (Nat.land e f) (Nat.land (not32 e) g)
    let maj := Nat.xor (Nat.xor (Nat.land a b) (Nat.land a c)) (Nat.land b c)
    let t1 := w32 (h + bigS1 e + ch + ki + wi)
    let t2 := w32 (bigS0 a + maj)
    [w32 (t1 + t2), a, b, c, w32 (d + t1), e, f, g]
  | other => other

/-- SHA-256 compression of one 64-byte chunk into the running hash. -/
def sha256Compress (hs : List Nat) (chunkBytes : List Nat) : List Nat :=
  let w := extendW (bytesToWords chunkBytes).toArray
  let final := (List.zip sha256K w.toList).foldl (fun st kw => sha256Round st kw.1 kw.2) hs
  List.zipWith (fun x y => w32 (x + y)) hs final

/-- Big-endian 8-byte encoding of a 64-bit length value. -/
def be64 (n : Nat) : List Nat :=
  [n / 2 ^ 56 % 256, n / 2 ^ 48 % 256, n / 2 ^ 40 % 256, n / 2 ^ 32 % 256,
   n / 2 ^ 24 % 256, n / 2 ^ 16 % 256, n / 2 ^ 8 % 256, n % 256]

/-- SHA-256 message padding: `0x80`, zeros to 56 mod 64, then the bit length. -/
def padMessage (msg : List Nat) : List Nat :=
  msg ++ [0x80] ++ List.replicate ((119 - msg.length % 64) % 64) 0 ++ be64 (8 * msg.length)

/-- Split a byte list into 64-byte chunks (fuel-driven recursion; the fuel is
the list length, which suffices since each step removes at least one byte). -/
def chunks64Go : Nat → List Nat → List (List Nat)
  | 0, _ => []
  | _ + 1, [] => []
  | fuel + 1, x :: rest => ((x :: rest).take 64) :: chunks64Go fuel ((x :: rest).drop 64)

/-- Split a byte list into 64-byte chunks. -/
def chunks64 (l : List Nat) : List (List Nat) := chunks64Go l.length l

/-- The eight 32-bit words of the SHA-256 digest of a byte list. -/
def sha256Words (msg : List Nat) : List Nat :=
  (chunks64 (padMessage msg)).foldl sha256Compress sha256H0

/-- Lowercase hexadecimal digit character. -/
def hexDigit (n : Nat) : Char :=
  if n < 10 then Char.ofNat (48 + n) else Char.ofNat (87 + n)

/-- Eight-digit lowercase hex rendering of a 32-bit word (Go `%x` on the
corresponding four big-endian bytes). -/
def word32Hex (n : Nat) : String :=
  String.mk ((List.range 8).map (fun i => hexDigit (n / 16 ^ (7 - i) % 16)))

/-- Lowercase hex string of the SHA-256 digest (Go `fmt.Sprintf("%x", hash)`). -/
def sha256Hex (msg : List Nat) : String :=
  String.join ((sha256Words msg).map word32Hex)

/-- UTF-8 encoding of one Unicode scalar value as bytes (Go `[]byte(string)`
uses UTF-8, as does Lean's `String`). -/
def utf8Bytes (c : Nat) : List Nat :=
  if c < 0x80 then [c]
  else if c < 0x800 then [0xC0 + c / 0x40, 0x80 + c % 0x40]
  else if c < 0x10000 then
    [0xE0 + c / 0x1000, 0x80 + c / 0x40 % 0x40, 0x80 + c % 0x40]
  else
    [0xF0 + c / 0x40000, 0x80 + c / 0x1000 % 0x40, 0x80 + c / 0x40 % 0x40, 0x80 + c % 0x40]

/-- The UTF-8 bytes of a string, as `Nat` values. -/
def strBytes (s : String) : List Nat :=
  (s.data.map (fun c => utf8Bytes c.toNat)).flatten

/-- Embeds `generateSedOperationKey` (main.go:307): SHA-256 hex digest of
`filePath ++ "|" ++ searchPattern ++ "|" ++ replacePattern`. -/
def generateSedOperationKey (filePath searchPattern replacePattern : String) : String :=
  sha256Hex (strBytes (filePath ++ "|" ++ searchPattern ++ "|" ++ replacePattern))

/-! ## Shell results and the sed Mutation Guard (`executeSed`, main.go:705) -/

/-- Embeds the Go `ShellResult` struct: captured stdout, stderr and exit code
of a tool handler. -/
structure ShellResult where
  stdout : String
  stderr : String
  exitCode : Nat
deriving DecidableEq, Repr

/-- State touched by `executeSed`: the process-global `sedDryRunCache`
(a Go `map[string]bool`, modelled as a total function whose default value is
`false`, exactly the Go lookup semantics) and the file system (path to
contents, `none` when the file does not exist). -/
structure SedState where
  cache : String → Bool
  fs : String → Option String

/-- Write one key of a `map[string]bool` (`m[k] = v`; `delete(m, k)` is
`setKey m k false`, since a Go lookup of a deleted key yields `false`). -/
def setKey (m : String → Bool) (k : String) (v : Bool) : String → Bool :=
  fun k' => if k' = k then v else m k'

/-- The guard-failure result returned by `executeSed` when an apply has no
matching previous dry-run (main.go:713). -/
def previewRequiredResult : ShellResult :=
  { stdout := ""
    stderr := "ERROR: Must perform dry-run before applying sed changes. Please run the same sed command with dryRun=true first."
    exitCode := 1 }

/-- Embeds `executeSed` (main.go:705).  `subst search replace content`
abstracts the external `sed s/search/replace/g` regex engine applied to the
file contents: `some newContent` when sed exits 0, `none` when sed itself
fails (e.g. an invalid pattern).  Control flow mirrors the source:

* apply (`dryRun = false`) first checks `sedDryRunCache[operationKey]` and
  returns the preview-required error without touching anything when unset;
* dry-run checks `os.Stat` and fails when the file is missing; otherwise it
  runs the shell pipeline `sed ... > tmp && diff -u ...; rm -f tmp`, whose
  exit status is that of the trailing `rm -f`, hence always `0` — the diff
  text on stdout is not modelled;
* after the command, a successful dry-run sets the cache entry and a
  successful apply deletes it (main.go:767-773); a failed apply leaves the
  entry in place. -/
def executeSed (subst : String → String → String → Option String)
    (st : SedState) (filePath searchPattern replacePattern : String)
    (dryRun : Bool) : ShellResult × SedState :=
  let operationKey := generateSedOperationKey filePath searchPattern replacePattern
  if !dryRun && !(st.cache operationKey) then
    (previewRequiredResult, st)
  else if dryRun then
    match st.fs filePath with
    | none =>
      ({ stdout := "", stderr := "sed: " ++ filePath ++ ": No such file or directory",
         exitCode := 1 }, st)
    | some _ =>
      ({ stdout := "", stderr := "", exitCode := 0 },
       { st with cache := setKey st.cache operationKey true })
  else
    match st.fs filePath with
    | none =>
      ({ stdout := "", stderr := "sed: can't read " ++ filePath ++ ": No such file or directory",
         exitCode := 1 }, st)
    | some content =>
      match subst searchPattern replacePattern content with
      | none =>
        ({ stdout := "", stderr := "sed: -e expression #1: command error", exitCode := 1 }, st)
      | some newContent =>
        ({ stdout := "", stderr := "", exitCode := 0 },
         { cache := setKey st.cache operationKey false
           fs := fun p => if p = filePath then some newContent else st.fs p })

/-! ## Checklist update (`updateTodoItem`, main.go:639) -/

/-- The first-match rewrite loop of `updateTodoItem` (main.go:666-678):
find the first line that contains `oldItem` and carries a `- [ ]` or `- [x]`
marker, and replace that whole line, preserving the checkbox state; `none`
when no line matches. -/
def updateLines (oldItem newItem : String) : List String → Option (List String)
  | [] => none
  | l :: ls =>
    if strContains l oldItem && (strContains l "- [ ]" || strContains l "- [x]") then
      some ((if strContains l "- [ ]" then "- [ ] " ++ newItem else "- [x] " ++ newItem) :: ls)
    else
      (updateLines oldItem newItem ls).map (l :: ·)

/-- Embeds `updateTodoItem` (main.go:639) as a pure function from the current
file contents and the update argument to the produced `ShellResult` and the
resulting file contents (unchanged on every error path, since the source only
calls `WriteFile` on success).  `strings.Split`/`TrimSpace`/`Contains`/`Join`
are modelled by `goSplit`/`goTrimSpace`/`strContains`/`goJoin`. -/
def updateTodoItem (content update : String) : ShellResult × String :=
  match goSplit " -> " update with
  | [p0, p1] =>
    let oldItem := goTrimSpace p0
    let newItem := goTrimSpace p1
    let lines := goSplit "\n" content
    match updateLines oldItem newItem lines with
    | none =>
      ({ stdout := "", stderr := "Todo item not found: " ++ oldItem, exitCode := 1 }, content)
    | some newLines =>
      ({ stdout := "Todo item updated successfully", stderr := "", exitCode := 0 },
       goJoin "\n" newLines)
  | _ =>
    ({ stdout := "", stderr := "Update format should be: 'old_item -> new_item'",
       exitCode := 1 }, content)

/-! ## Retry wrapper (`callWithRetry` / `shouldRetry`, main.go:1639-1670) -/

/-- Embeds the Go `error` values distinguished by `shouldRetry`: an
`*openai.Error` carrying an HTTP status code, or any other error. -/
inductive APIError where
  | openaiError (statusCode : Int) (message : String)
  | otherError (message : String)
deriving DecidableEq, Repr

/-- Embeds `shouldRetry` (main.go:1664): retry exactly on an `*openai.Error`
whose status code lies in `[500, 600)`. -/
def shouldRetry : APIError → Bool
  | .openaiError code _ => decide (500 ≤ code) && decide (code < 600)
  | .otherError _ => false

/-- Observable trace of one `callWithRetry` run: the returned value or error,
how many times the remote call was invoked, and the sleep durations (in
nanoseconds) in order. -/
structure RetryTrace (α : Type) where
  result : Except APIError α
  invocations : Nat
  sleeps : List Nat
deriving Repr

/-- `maxRetries` (main.go:1640). -/
def maxRetries : Nat := 10

/-- `baseDelay` (main.go:1641), in nanoseconds (`time.Second`).  The source
computes each delay as `time.Duration(float64(baseDelay) * math.Pow(2, attempt))`;
for every reachable attempt (`attempt ≤ 9`) this float64 computation is exact
and equals `baseDelay * 2 ^ attempt`. -/
def baseDelayNs : Nat := 1000000000

/-- The loop body of `callWithRetry` (main.go:1643-1659), recursing on the
remaining iteration count (`fuel = maxRetries + 1 - attempt`).  `calls n` is
the outcome of the `n`-th invocation of the remote call. -/
def retryLoop {α : Type} (calls : Nat → Except APIError α) :
    Nat → Nat → RetryTrace α
  | _, 0 => { result := .error (.otherError "exceeded maximum retries"), invocations := 0, sleeps := [] }
  | attempt, fuel + 1 =>
    match calls attempt with
    | .ok v => { result := .ok v, invocations := 1, sleeps := [] }
    | .error e =>
      if shouldRetry e && attempt < maxRetries then
        let delay := baseDelayNs * 2 ^ attempt
        let rest := retryLoop calls (attempt + 1) fuel
        { result := rest.result, invocations := rest.invocations + 1, sleeps := delay :: rest.sleeps }
      else
        { result := .error e, invocations := 1, sleeps := [] }

/-- Embeds `callWithRetry` (main.go:1639): run the attempt loop from
`attempt = 0` with its `attempt <= maxRetries` bound. -/
def callWithRetry {α : Type} (calls : Nat → Except APIError α) : RetryTrace α :=
  retryLoop calls 0 (maxRetries + 1)

/-! ## Protocol adapter (main.go:778-873)

JSON values model Go's `map[string]interface{}` tool-call arguments.  The
serialization pair `json.Marshal` / `json.Unmarshal` from Go's standard
library is elided (treated as the identity on JSON-representable values), so
the `arguments` field of a wire tool call carries the `Json` value directly. -/

/-- JSON values (Go `interface{}` results of `encoding/json` decoding). -/
inductive Json where
  | null
  | jbool (b : Bool)
  | jnum (n : Int)
  | jstr (s : String)
  | jarr (elems : List Json)
  | jobj (fields : List (String × Json))

/-- Embeds the Go `ToolCallFunction` struct (main.go:114). -/
structure ToolCallFunction where
  name : String
  arguments : Json

/-- Embeds the Go `ToolCall` struct (main.go:108). -/
structure ToolCall where
  id : String
  callType : String
  function : ToolCallFunction

/-- Embeds the Go `ContentBlock` struct (main.go:63): a tagged record whose
`type` field is `"text"` or `"tool_use"`. -/
structure ContentBlock where
  blockType : String
  text : String
  id : String
  name : String
  input : Json

/-- Embeds the Go `ToolResult` struct (main.go:71). -/
structure ToolResult where
  resultType : String
  toolUseId : String
  content : String

/-- The dynamic `interface{}` content of an internal `Message` (main.go:48):
a plain string, a list of tool results, or a list of content blocks. -/
inductive MsgContent where
  | str (s : String)
  | results (rs : List ToolResult)
  | blocks (bs : List ContentBlock)

/-- Embeds the internal `Message` struct (main.go:48). -/
structure Message where
  role : String
  content : MsgContent

/-- Embeds the wire `ChatMessage` struct (main.go:56); Go zero values are the
empty string and the empty list. -/
structure ChatMessage where
  role : String
  content : String
  toolCalls : List ToolCall
  toolCallId : String

/-- Embeds the wire `ChoiceMessage` struct (main.go:102) carried inside an
API response choice. -/
structure ChoiceMessage where
  role : String
  content : String
  toolCalls : List ToolCall

/-- Embeds the wire `Choice` struct (main.go:96). -/
structure Choice where
  index : Nat
  message : ChoiceMessage
  finishReason : String

/-- The assistant branch of `convertMessagesToChat` (main.go:808-839): text
blocks are collected and joined with newlines, tool-use blocks become wire
tool calls of type `"function"`. -/
def convertAssistantBlocks (blocks : List ContentBlock) : ChatMessage :=
  let textParts := (blocks.filter (fun b => b.blockType == "text")).map (fun b => b.text)
  let toolCalls := (blocks.filter (fun b => b.blockType == "tool_use")).map
    (fun b => ToolCall.mk b.id "function" (ToolCallFunction.mk b.name b.input))
  { role := "assistant"
    content := if textParts.length > 0 then goJoin "\n" textParts else ""
    toolCalls := toolCalls
    toolCallId := "" }

/-- One internal message's wire encoding inside `convertMessagesToChat`
(main.go:790-841): a user string becomes a user message, user tool results
become one `tool` message each, assistant content blocks are flattened by
`convertAssistantBlocks`; every other combination is dropped for user
messages and encoded as an empty assistant message for assistant roles,
exactly as the source's type switches behave. -/
def encodeMessage (msg : Message) : List ChatMessage :=
  if msg.role == "user" then
    match msg.content with
    | .str s => [{ role := "user", content := s, toolCalls := [], toolCallId := "" }]
    | .results rs =>
      rs.map (fun r =>
        { role := "tool", content := r.content, toolCalls := [], toolCallId := r.toolUseId })
    | .blocks _ => []
  else if msg.role == "assistant" then
    match msg.content with
    | .blocks bs => [convertAssistantBlocks bs]
    | _ => [{ role := "assistant", content := "", toolCalls := [], toolCallId := "" }]
  else []

/-- Embeds `convertMessagesToChat` (main.go:778): the system prompt first,
then every internal message's encoding. -/
def convertMessagesToChat (messages : List Message) (systemPrompt : String) : List ChatMessage :=
  { role := "system", content := systemPrompt, toolCalls := [], toolCallId := "" }
    :: (messages.map encodeMessage).flatten

/-- Embeds `convertChoiceToContentBlocks` (main.go:847): one text block when
the content string is nonempty, followed by one tool-use block per wire tool
call. -/
def convertChoiceToContentBlocks (choice : Choice) : List ContentBlock :=
  (if choice.message.content ≠ "" then
    [ContentBlock.mk "text" choice.message.content "" "" Json.null]
  else [])
  ++ choice.message.toolCalls.map (fun tc =>
      ContentBlock.mk "tool_use" "" tc.id tc.function.name tc.function.arguments)

/-- Encode an assistant block list onto the wire and decode it back: the wire
response's `ChoiceMessage` carries exactly the fields the request-side
`ChatMessage` carries (content string plus tool-call array), so a choice
built from the encoded message is the wire round trip the Agent Loop
performs. -/
def roundTripAssistant (blocks : List ContentBlock) : List ContentBlock :=
  let m := convertAssistantBlocks blocks
  convertChoiceToContentBlocks (Choice.mk 0 (ChoiceMessage.mk m.role m.content m.toolCalls) "stop")

/-! ## Agent loop tool dispatch (main.go:1209-1379) -/

/-- Outcome of processing one assistant response's content blocks: either the
`finished` tool was invoked and `runAgentLoop` returned `nil` (success), or
the loop continues with the accumulated message history and the
`hasToolUse` flag. -/
inductive LoopStep where
  | finishedRun
  | continueLoop (msgs : List Message) (hasToolUse : Bool)

/-- The inner block-dispatch loop of `runAgentLoop` (main.go:1209-1379).
Text blocks are printed and skipped; each `tool_use` block sets `hasToolUse`;
the `finished` tool returns from `runAgentLoop` immediately; every other tool
is dispatched through `handle`, which abstracts the per-tool argument
extraction and external execution — `some r` when a tool result message is
appended, `none` when the source appends nothing (unknown tool name or a
missing required argument). -/
def dispatchBlocks (handle : ContentBlock → Option ToolResult) :
    List ContentBlock → Bool → List Message → LoopStep
  | [], hasToolUse, msgs => .continueLoop msgs hasToolUse
  | b :: rest, hasToolUse, msgs =>
    if b.blockType == "text" then
      dispatchBlocks handle rest hasToolUse msgs
    else if b.blockType == "tool_use" then
      if b.name == "finished" then .finishedRun
      else
        match handle b with
        | some r =>
          dispatchBlocks handle rest true
            (msgs ++ [Message.mk "user" (.results [r])])
        | none => dispatchBlocks handle rest true msgs
    else dispatchBlocks handle rest hasToolUse msgs

/-! ## Permission gate (`promptForCommandExecution`, main.go:137, and
`AgentState.handleBashCommand`, main.go:1581) -/

/-- Result of running a Go function that may panic at runtime. -/
inductive GoResult (α : Type) where
  | ok (val : α)
  | panicked (msg : String)
deriving Repr

/-- The Go runtime message for indexing element 0 of an empty slice. -/
def indexOutOfRange : String := "runtime error: index out of range [0] with length 0"

/-- Embeds `promptForCommandExecution` (main.go:137).  Environment reads and
interactive input are parameters: `testMode` is `TEST_MODE == "true"`,
`allowed` is the `alwaysAllowedCommands` map, `response` and `instruction`
are the operator's console inputs.  The result carries the decision together
with the possibly updated allow-list.  Note the source indexes
`strings.Fields(command)[0]` (line 144) *before* its empty-fields guard
(line 145), so an empty field list panics. -/
def promptForCommandExecution (testMode : Bool) (allowed : String → Bool)
    (response _instruction : String) (command : String) :
    GoResult (Bool × (String → Bool)) :=
  if testMode then .ok (true, allowed)
  else
    match goFields command with
    | [] => .panicked indexOutOfRange
    | binary :: restFields =>
      if (binary :: restFields).length == 0 then .ok (false, allowed)
      else if allowed binary then .ok (true, allowed)
      else
        match response.toLower with
        | "y" => .ok (true, allowed)
        | "yes" => .ok (true, allowed)
        | "n" => .ok (false, allowed)
        | "no" => .ok (false, allowed)
        | "i" => .ok (false, allowed)
        | "instruct" => .ok (false, allowed)
        | "a" => .ok (true, setKey allowed binary true)
        | "always" => .ok (true, setKey allowed binary true)
        | _ => .ok (false, allowed)

/-- Embeds `AgentState.handleBashCommand` (main.go:1581, second program
variant).  `choice` is the operator's menu selection, `instruction` the
alternative-instruction input, and `run` abstracts
`exec.Command("bash", "-c", command).CombinedOutput()`.  The allow-list
update of the "always" branch and the conversation append of the "instruct"
branch are not tracked here; only the returned string matters for the
claims.  As in the first variant, `strings.Fields(command)[0]` (line 1582)
panics on an empty field list — and this variant has no guard at all. -/
def handleBashCommand (allowed : String → Bool) (choice instruction : String)
    (run : String → String) (command : String) : GoResult String :=
  match goFields command with
  | [] => .panicked indexOutOfRange
  | baseCommand :: _ =>
    if allowed baseCommand then .ok (run command)
    else
      match choice with
      | "yes" => .ok (run command)
      | "no" => .ok "Permission denied by user"
      | "always" => .ok (run command)
      | "instruct" =>
        if instruction.trim == "" then
          .ok "Permission denied - no alternative instructions provided"
        else .ok "User provided alternative instructions"
      | _ => .ok "Permission denied - invalid response"

/-! ## Helper definitions used by the theorem statements -/

/-- A line matches the checklist update/complete search (main.go:668) when it
contains the searched text and carries a pending or done marker. -/
def todoLineMatches (oldItem l : String) : Bool :=
  strContains l oldItem && (strContains l "- [ ]" || strContains l "- [x]")

/-- The checkbox marker a matched line keeps when rewritten by the update
action (main.go:670-674): pending when the line contains `- [ ]`, done
otherwise. -/
def todoMarker (l : String) : String :=
  if strContains l "- [ ]" then "- [ ] " else "- [x] "

/-- Tool-use content block with the given id, name and arguments. -/
def mkToolUseBlock (p : String × String × Json) : ContentBlock :=
  ContentBlock.mk "tool_use" "" p.1 p.2.1 p.2.2

/-- Text content block with the given text. -/
def mkTextBlock (t : String) : ContentBlock :=
  ContentBlock.mk "text" t "" "" Json.null

/-- Two-file file system for the operation-key collision scenario: the file
`"a|b"` (previewed) and the file `"a"` (mutated by the colliding apply). -/
def collisionFs : String → Option String :=
  fun p => if p = "a|b" then some "x" else if p = "a" then some "y" else none

end Agent

namespace Agent

/-! # Theorems settling the claims -/

/-! Operational lemmas characterizing each control path of `executeSed`; the
operation key is abstracted by an equation `hK` so that later proofs can keep
it opaque. -/

/-- A dry-run on an existing file succeeds and records the operation key. -/
theorem executeSed_dryRun_found (subst : String → String → String → Option String)
    (st : SedState) (t s r cont K : String)
    (hK : generateSedOperationKey t s r = K) (hfs : st.fs t = some cont) :
    executeSed subst st t s r true = (⟨"", "", 0⟩, ⟨setKey st.cache K true, st.fs⟩) := by
  unfold executeSed
  rw [hK]
  simp [hfs]

/-- A dry-run on a missing file fails and changes nothing. -/
theorem executeSed_dryRun_missing (subst : String → String → String → Option String)
    (st : SedState) (t s r : String) (hfs : st.fs t = none) :
    executeSed subst st t s r true
      = (⟨"", "sed: " ++ t ++ ": No such file or directory", 1⟩, st) := by
  unfold executeSed
  simp [hfs]

/-- An apply with no recorded dry-run fails with the preview-required error
and changes nothing. -/
theorem executeSed_apply_noPreview (subst : String → String → String → Option String)
    (st : SedState) (t s r K : String)
    (hK : generateSedOperationKey t s r = K) (hc : st.cache K = false) :
    executeSed subst st t s r false = (previewRequiredResult, st) := by
  unfold executeSed
  rw [hK]
  simp [hc]

/-- An authorized apply whose target file is missing fails (the in-place sed
exits non-zero) and changes nothing — in particular the cache entry stays. -/
theorem executeSed_apply_missing (subst : String → String → String → Option String)
    (st : SedState) (t s r K : String)
    (hK : generateSedOperationKey t s r = K) (hc : st.cache K = true)
    (hfs : st.fs t = none) :
    executeSed subst st t s r false
      = (⟨"", "sed: can't read " ++ t ++ ": No such file or directory", 1⟩, st) := by
  unfold executeSed
  rw [hK]
  simp [hc, hfs]

/-- An authorized apply whose substitution fails (sed exits non-zero) changes
nothing — in particular the cache entry stays. -/
theorem executeSed_apply_substFail (subst : String → String → String → Option String)
    (st : SedState) (t s r cont K : String)
    (hK : generateSedOperationKey t s r = K) (hc : st.cache K = true)
    (hfs : st.fs t = some cont) (hsub : subst s r cont = none) :
    executeSed subst st t s r false
      = (⟨"", "sed: -e expression #1: command error", 1⟩, st) := by
  unfold executeSed
  rw [hK]
  simp [hc, hfs, hsub]

/-- An authorized apply on an existing file with a successful substitution
rewrites the file and deletes the cache entry. -/
theorem executeSed_apply_ok (subst : String → String → String → Option String)
    (st : SedState) (t s r cont newC K : String)
    (hK : generateSedOperationKey t s r = K) (hc : st.cache K = true)
    (hfs : st.fs t = some cont) (hsub : subst s r cont = some newC) :
    executeSed subst st t s r false
      = (⟨"", "", 0⟩,
         ⟨setKey st.cache K false, fun p => if p = t then some newC else st.fs p⟩) := by
  unfold executeSed
  rw [hK]
  simp [hc, hfs, hsub]

/-- Claim C1: applying a sed substitution (`executeSed` with `dryRun = false`)
while the Mutation Guard cache holds no entry for the triple's operation key
fails: the exit code is non-zero, the stderr mentions the dry-run
requirement, and the whole state — in particular every file's contents — is
unchanged. -/
theorem apply_without_preview_fails
    (subst : String → String → String → Option String) (st : SedState)
    (target search replace : String)
    (h : st.cache (generateSedOperationKey target search replace) = false) :
    (executeSed subst st target search replace false).1.exitCode ≠ 0 ∧
    (∃ pre post,
      (executeSed subst st target search replace false).1.stderr = pre ++ "dry-run" ++ post) ∧
    (executeSed subst st target search replace false).2 = st := by
  have hstep : executeSed subst st target search replace false = (previewRequiredResult, st) := by
    unfold executeSed
    simp [h]
  rw [hstep]
  refine ⟨?_, ?_, rfl⟩
  · show previewRequiredResult.exitCode ≠ 0
    decide
  · show ∃ pre post, previewRequiredResult.stderr = pre ++ "dry-run" ++ post
    exact ⟨"ERROR: Must perform ",
      " before applying sed changes. Please run the same sed command with dryRun=true first.",
      by decide⟩

/-- Witness for C1 at a concrete input: empty cache, empty file system,
triple `("f.txt", "a", "b")`. -/
theorem apply_without_preview_fails_witness :
    ((⟨fun _ => false, fun _ => none⟩ : SedState).cache
        (generateSedOperationKey "f.txt" "a" "b") = false) ∧
    (executeSed (fun _ _ content => some content) ⟨fun _ => false, fun _ => none⟩
        "f.txt" "a" "b" false).1.exitCode ≠ 0 ∧
    (executeSed (fun _ _ content => some content) ⟨fun _ => false, fun _ => none⟩
        "f.txt" "a" "b" false).2 = ⟨fun _ => false, fun _ => none⟩ :=
  ⟨rfl,
   (apply_without_preview_fails (fun _ _ content => some content)
      ⟨fun _ => false, fun _ => none⟩ "f.txt" "a" "b" rfl).1,
   (apply_without_preview_fails (fun _ _ content => some content)
      ⟨fun _ => false, fun _ => none⟩ "f.txt" "a" "b" rfl).2.2⟩

/-- Claim C3: a successful apply consumes the Mutation Guard entry.  After a
successful preview of a triple, the matching apply succeeds (reaching a state
`st2` whose target file reflects the substitution), the cache entry for the
triple's operation key is gone in `st2`, and a second identical apply (no
intervening preview) fails with the preview-required error and changes
nothing. -/
theorem apply_consumes_preview
    (subst : String → String → String → Option String) (st : SedState)
    (target search replace c c' : String)
    (hfs : st.fs target = some c) (hsub : subst search replace c = some c') :
    ∃ st1 st2 : SedState,
      executeSed subst st target search replace true = (⟨"", "", 0⟩, st1) ∧
      executeSed subst st1 target search replace false = (⟨"", "", 0⟩, st2) ∧
      st2.cache (generateSedOperationKey target search replace) = false ∧
      st2.fs target = some c' ∧
      executeSed subst st2 target search replace false = (previewRequiredResult, st2) := by
  generalize hK : generateSedOperationKey target search replace = K
  refine ⟨⟨setKey st.cache K true, st.fs⟩,
    ⟨setKey (setKey st.cache K true) K false, fun p => if p = target then some c' else st.fs p⟩,
    executeSed_dryRun_found subst st target search replace c K hK hfs,
    executeSed_apply_ok subst _ target search replace c c' K hK (by simp [setKey]) hfs hsub,
    by simp [setKey], by simp,
    executeSed_apply_noPreview subst _ target search replace K hK (by simp [setKey])⟩

/-- Witness for C3 at a concrete input: one file `"t"` with contents `"x"`,
substitution producing `"y"`, triple `("t", "s", "r")`. -/
theorem apply_consumes_preview_witness :
    ((⟨fun _ => false, fun p => if p = "t" then some "x" else none⟩ : SedState).fs "t"
        = some "x") ∧
    ((fun _ _ _ => some "y") "s" "r" "x" = some ("y" : String)) ∧
    (∃ st1 st2 : SedState,
      executeSed (fun _ _ _ => some "y")
          ⟨fun _ => false, fun p => if p = "t" then some "x" else none⟩
          "t" "s" "r" true = (⟨"", "", 0⟩, st1) ∧
      executeSed (fun _ _ _ => some "y") st1 "t" "s" "r" false = (⟨"", "", 0⟩, st2) ∧
      st2.cache (generateSedOperationKey "t" "s" "r") = false ∧
      st2.fs "t" = some "y" ∧
      executeSed (fun _ _ _ => some "y") st2 "t" "s" "r" false = (previewRequiredResult, st2)) :=
  ⟨by decide, rfl,
   apply_consumes_preview (fun _ _ _ => some "y")
     ⟨fun _ => false, fun p => if p = "t" then some "x" else none⟩
     "t" "s" "r" "x" "y" (by decide) rfl⟩

/-- Claim C10: the Mutation Guard entry survives a failed apply, and a failed
preview creates no entry.  (1) An authorized apply on a missing target file
fails, leaves the state unchanged, and keeps the cache entry; (2) an
authorized apply whose substitution fails does the same; (3) a preview on a
missing target file fails and leaves the state — hence the cache — exactly
as it was. -/
theorem cache_survives_failed_apply :
    (∀ (subst : String → String → String → Option String) (st : SedState)
       (target search replace : String),
      st.cache (generateSedOperationKey target search replace) = true →
      st.fs target = none →
      (executeSed subst st target search replace false).1.exitCode ≠ 0 ∧
      (executeSed subst st target search replace false).2 = st ∧
      (executeSed subst st target search replace false).2.cache
        (generateSedOperationKey target search replace) = true) ∧
    (∀ (subst : String → String → String → Option String) (st : SedState)
       (target search replace c : String),
      st.cache (generateSedOperationKey target search replace) = true →
      st.fs target = some c →
      subst search replace c = none →
      (executeSed subst st target search replace false).1.exitCode ≠ 0 ∧
      (executeSed subst st target search replace false).2 = st ∧
      (executeSed subst st target search replace false).2.cache
        (generateSedOperationKey target search replace) = true) ∧
    (∀ (subst : String → String → String → Option String) (st : SedState)
       (target search replace : String),
      st.fs target = none →
      (executeSed subst st target search replace true).1.exitCode ≠ 0 ∧
      (executeSed subst st target search replace true).2 = st) := by
  refine ⟨?_, ?_, ?_⟩
  · intro subst st target search replace hc hfs
    rw [executeSed_apply_missing subst st target search replace
      (generateSedOperationKey target search replace) rfl hc hfs]
    exact ⟨by simp, rfl, hc⟩
  · intro subst st target search replace c hc hfs hsub
    rw [executeSed_apply_substFail subst st target search replace c
      (generateSedOperationKey target search replace) rfl hc hfs hsub]
    exact ⟨by simp, rfl, hc⟩
  · intro subst st target search replace hfs
    rw [executeSed_dryRun_missing subst st target search replace hfs]
    exact ⟨by simp, rfl⟩

/-- Witness for C10 at concrete inputs: a cache that authorizes everything
with a missing file; the same with an existing file but a failing
substitution; and an empty state whose preview target is missing. -/
theorem cache_survives_failed_apply_witness :
    ((⟨fun _ => true, fun _ => none⟩ : SedState).fs "t" = none) ∧
    ((executeSed (fun _ _ _ => some "y") ⟨fun _ => true, fun _ => none⟩
        "t" "s" "r" false).1.exitCode ≠ 0 ∧
     (executeSed (fun _ _ _ => some "y") ⟨fun _ => true, fun _ => none⟩
        "t" "s" "r" false).2 = ⟨fun _ => true, fun _ => none⟩ ∧
     (executeSed (fun _ _ _ => some "y") ⟨fun _ => true, fun _ => none⟩
        "t" "s" "r" false).2.cache (generateSedOperationKey "t" "s" "r") = true) ∧
    ((executeSed (fun _ _ _ => none) ⟨fun _ => true, fun p => if p = "t" then some "x" else none⟩
        "t" "s" "r" false).1.exitCode ≠ 0 ∧
     (executeSed (fun _ _ _ => none) ⟨fun _ => true, fun p => if p = "t" then some "x" else none⟩
        "t" "s" "r" false).2 = ⟨fun _ => true, fun p => if p = "t" then some "x" else none⟩ ∧
     (executeSed (fun _ _ _ => none) ⟨fun _ => true, fun p => if p = "t" then some "x" else none⟩
        "t" "s" "r" false).2.cache (generateSedOperationKey "t" "s" "r") = true) ∧
    ((executeSed (fun _ _ _ => some "y") ⟨fun _ => false, fun _ => none⟩
        "t" "s" "r" true).1.exitCode ≠ 0 ∧
     (executeSed (fun _ _ _ => some "y") ⟨fun _ => false, fun _ => none⟩
        "t" "s" "r" true).2 = ⟨fun _ => false, fun _ => none⟩) :=
  ⟨rfl,
   cache_survives_failed_apply.1 (fun _ _ _ => some "y")
     ⟨fun _ => true, fun _ => none⟩ "t" "s" "r" rfl rfl,
   cache_survives_failed_apply.2.1 (fun _ _ _ => none)
     ⟨fun _ => true, fun p => if p = "t" then some "x" else none⟩ "t" "s" "r" "x"
     rfl (by decide) rfl,
   cache_survives_failed_apply.2.2 (fun _ _ _ => some "y")
     ⟨fun _ => false, fun _ => none⟩ "t" "s" "r" rfl⟩

/-- Claim C8: the operation key concatenates its three inputs with `"|"`, so
the two distinct triples `("a|b", "c", "d")` and `("a", "b|c", "d")` hash the
same string `"a|b|c|d"` and get equal operation keys; consequently, starting
from an empty cache where applying the second triple is rejected, a
successful preview of the *first* triple authorizes an apply of the *second*,
which then mutates the never-previewed file `"a"`. -/
theorem operationKey_collision :
    (("a|b", "c", "d") : String × String × String) ≠ ("a", "b|c", "d") ∧
    generateSedOperationKey "a|b" "c" "d" = generateSedOperationKey "a" "b|c" "d" ∧
    executeSed (fun _ _ cont => some cont) ⟨fun _ => false, collisionFs⟩ "a" "b|c" "d" false
      = (previewRequiredResult, ⟨fun _ => false, collisionFs⟩) ∧
    (∃ st1 : SedState,
      executeSed (fun _ _ cont => some cont) ⟨fun _ => false, collisionFs⟩ "a|b" "c" "d" true
        = (⟨"", "", 0⟩, st1) ∧
      (executeSed (fun _ _ cont => some cont) st1 "a" "b|c" "d" false).1.exitCode = 0 ∧
      (executeSed (fun _ _ cont => some cont) st1 "a" "b|c" "d" false).2.fs "a" = some "y") := by
  have hdata : ("a|b" ++ "|" ++ "c" ++ "|" ++ "d" : String) = "a" ++ "|" ++ "b|c" ++ "|" ++ "d" := by
    decide
  have hkeys : generateSedOperationKey "a|b" "c" "d" = generateSedOperationKey "a" "b|c" "d" := by
    unfold generateSedOperationKey
    rw [hdata]
  obtain ⟨K1, hK1⟩ : ∃ K1, generateSedOperationKey "a|b" "c" "d" = K1 := ⟨_, rfl⟩
  have hK2 : generateSedOperationKey "a" "b|c" "d" = K1 := hkeys.symm.trans hK1
  have hprev := executeSed_dryRun_found (fun _ _ cont => some cont)
    ⟨fun _ => false, collisionFs⟩ "a|b" "c" "d" "x" K1 hK1 (by decide)
  have hcache : (⟨setKey (fun _ => false) K1 true, collisionFs⟩ : SedState).cache K1 = true := by
    simp [setKey]
  have happ := executeSed_apply_ok (fun _ _ cont => some cont)
    ⟨setKey (fun _ => false) K1 true, collisionFs⟩ "a" "b|c" "d" "y" "y" K1 hK2 hcache
    rfl rfl
  refine ⟨by decide, hkeys,
    executeSed_apply_noPreview (fun _ _ cont => some cont)
      ⟨fun _ => false, collisionFs⟩ "a" "b|c" "d" K1 hK2 rfl,
    ⟨setKey (fun _ => false) K1 true, collisionFs⟩, hprev, ?_, ?_⟩
  · rw [happ]
  · rw [happ]
    simp


/-- Induction skeleton for the retry loop: starting at attempt `a` with the
source's remaining fuel, a stub that fails retryably `N` times and then
succeeds yields the success after exactly `N + 1` invocations and sleeps
`baseDelayNs * 2 ^ attempt` before each retry. -/
theorem retryLoop_ok_after_retryable {α : Type} (calls : Nat → Except APIError α) (v : α) :
    ∀ (N a : Nat), a + N ≤ maxRetries →
    (∀ i, i < N → ∃ e, calls (a + i) = .error e ∧ shouldRetry e = true) →
    calls (a + N) = .ok v →
    retryLoop calls a (maxRetries + 1 - a) =
      { result := .ok v, invocations := N + 1,
        sleeps := (List.range N).map (fun i => baseDelayNs * 2 ^ (a + i)) } := by
  intro N
  induction N with
  | zero =>
    intro a ha hfail hok
    simp only [Nat.add_zero] at hok
    have hfuel : maxRetries + 1 - a = (maxRetries - a) + 1 := by omega
    rw [hfuel]
    simp [retryLoop, hok]
  | succ n ih =>
    intro a ha hfail hok
    obtain ⟨e, he, hre⟩ := hfail 0 (by omega)
    simp only [Nat.add_zero] at he
    have hfuel : maxRetries + 1 - a = (maxRetries - a) + 1 := by omega
    have halt : a < maxRetries := by omega
    have hfail' : ∀ i, i < n → ∃ e, calls (a + 1 + i) = .error e ∧ shouldRetry e = true := by
      intro i hi
      obtain ⟨e', he', hre'⟩ := hfail (i + 1) (by omega)
      exact ⟨e', by rw [show a + 1 + i = a + (i + 1) from by omega]; exact he', hre'⟩
    have hok' : calls (a + 1 + n) = .ok v := by
      rw [show a + 1 + n = a + (n + 1) from by omega]; exact hok
    have hrest := ih (a + 1) (by omega) hfail' hok'
    have hconv : maxRetries + 1 - (a + 1) = maxRetries - a := by omega
    rw [hconv] at hrest
    rw [hfuel]
    rw [retryLoop, he]
    simp only [hre, halt, Bool.true_and]
    rw [hrest]
    simp [List.range_succ_eq_map, List.map_map, Function.comp]
    intro i _
    exact Or.inl (by omega)

/-- Claim C5: the retry wrapper retries exactly on 5xx `openai.Error` values;
a stub failing retryably `N ≤ maxRetries` times and then succeeding makes the
wrapper return the success after exactly `N + 1` invocations, sleeping
`baseDelay * 2 ^ attempt` between attempts with strictly increasing delays;
a terminal (non-5xx) error is returned after exactly one invocation with no
sleeping. -/
theorem retry_wrapper_spec :
    (∀ e : APIError, shouldRetry e = true ↔
      ∃ code msg, e = .openaiError code msg ∧ 500 ≤ code ∧ code < 600) ∧
    (∀ (α : Type) (calls : Nat → Except APIError α) (N : Nat) (v : α),
      N ≤ maxRetries →
      (∀ i, i < N → ∃ e, calls i = .error e ∧ shouldRetry e = true) →
      calls N = .ok v →
      callWithRetry calls =
        { result := .ok v, invocations := N + 1,
          sleeps := (List.range N).map (fun i => baseDelayNs * 2 ^ i) } ∧
      ((List.range N).map (fun i => baseDelayNs * 2 ^ i)).Pairwise (· < ·)) ∧
    (∀ (α : Type) (calls : Nat → Except APIError α) (e : APIError),
      calls 0 = .error e → shouldRetry e = false →
      callWithRetry calls = { result := .error e, invocations := 1, sleeps := [] }) := by
  refine ⟨?_, ?_, ?_⟩
  · intro e
    cases e with
    | openaiError code msg => simp [shouldRetry]
    | otherError msg => simp [shouldRetry]
  · intro α calls N v hN hfail hok
    have h := retryLoop_ok_after_retryable calls v N 0 (by omega)
      (by simpa using hfail) (by simpa using hok)
    simp only [Nat.sub_zero, Nat.zero_add, zero_add] at h
    constructor
    · exact h
    · rw [List.pairwise_map]
      refine (List.pairwise_lt_range N).imp ?_
      intro i j hij
      have h2 : (2 : Nat) ^ i < 2 ^ j := Nat.pow_lt_pow_right (by norm_num) hij
      have hb : 0 < baseDelayNs := by norm_num [baseDelayNs]
      exact mul_lt_mul_of_pos_left h2 hb
  · intro α calls e h0 hterm
    unfold callWithRetry
    rw [retryLoop, h0]
    simp [hterm]


/-- Witness for C5 at a concrete input: two 503 failures followed by a
success, and a terminal 400-class (non-`openai.Error`) failure. -/
theorem retry_wrapper_spec_witness :
    (2 ≤ maxRetries) ∧
    ((fun i => if i < 2 then Except.error (APIError.openaiError 503 "server error")
        else Except.ok 7) 2 = Except.ok (7 : Nat)) ∧
    (callWithRetry (fun i => if i < 2 then Except.error (APIError.openaiError 503 "server error")
        else Except.ok (7 : Nat)) =
      { result := Except.ok 7, invocations := 2 + 1,
        sleeps := (List.range 2).map (fun i => baseDelayNs * 2 ^ i) } ∧
     ((List.range 2).map (fun i => baseDelayNs * 2 ^ i)).Pairwise (· < ·)) ∧
    callWithRetry (fun _ => (Except.error (APIError.otherError "bad request") : Except APIError Nat)) =
      { result := Except.error (APIError.otherError "bad request"), invocations := 1, sleeps := [] } := by
  refine ⟨by decide, rfl, ?_, ?_⟩
  · exact retry_wrapper_spec.2.1 Nat
      (fun i => if i < 2 then Except.error (APIError.openaiError 503 "server error") else Except.ok 7)
      2 7 (by decide)
      (fun i hi => by interval_cases i <;> exact ⟨APIError.openaiError 503 "server error", rfl, by decide⟩)
      rfl
  · exact retry_wrapper_spec.2.2 Nat
      (fun _ => Except.error (APIError.otherError "bad request")) (APIError.otherError "bad request")
      rfl rfl



/-- Claim C6: a `finished` invocation terminates the dispatch loop
immediately.  For any assistant response whose blocks are `pre ++ fin :: post`
where `fin` is a `finished` tool invocation and no block of `pre` is one, the
block-dispatch loop returns the run-finished signal (`runAgentLoop` returns
`nil`) for *every* tool executor and every `post` — so no invocation after
the `finished` one is dispatched and no tool result is appended for it. -/
theorem finished_stops_dispatch
    (handle : ContentBlock → Option ToolResult) (pre post : List ContentBlock)
    (fin : ContentBlock) (hasToolUse : Bool) (msgs : List Message)
    (hfin : fin.blockType = "tool_use" ∧ fin.name = "finished")
    (hpre : ∀ b ∈ pre, ¬(b.blockType = "tool_use" ∧ b.name = "finished")) :
    dispatchBlocks handle (pre ++ fin :: post) hasToolUse msgs = .finishedRun := by
  induction pre generalizing hasToolUse msgs with
  | nil =>
    simp [dispatchBlocks, hfin.1, hfin.2]
  | cons b bs ih =>
    have hb := hpre b (List.mem_cons_self b bs)
    have hbs : ∀ x ∈ bs, ¬(x.blockType = "tool_use" ∧ x.name = "finished") :=
      fun x hx => hpre x (List.mem_cons_of_mem b hx)
    rw [List.cons_append, dispatchBlocks]
    by_cases htext : b.blockType = "text"
    · simp only [htext, beq_self_eq_true, if_true]
      exact ih hasToolUse msgs hbs
    · by_cases htool : b.blockType = "tool_use"
      · have hname : b.name ≠ "finished" := fun hn => hb ⟨htool, hn⟩
        have h1 : (b.blockType == "text") = false := by simp [htool]
        have h2 : (b.blockType == "tool_use") = true := by simp [htool]
        have h3 : (b.name == "finished") = false := by simp [hname]
        rw [h1]
        simp only [Bool.false_eq_true, if_false]
        rw [h2]
        simp only [if_true]
        rw [h3]
        simp only [Bool.false_eq_true, if_false]
        cases hh : handle b with
        | some r =>
          exact ih true (msgs ++ [Message.mk "user" (.results [r])]) hbs
        | none =>
          exact ih true msgs hbs
      · have h1 : (b.blockType == "text") = false := by simp [htext]
        have h2 : (b.blockType == "tool_use") = false := by simp [htool]
        rw [h1]
        simp only [Bool.false_eq_true, if_false]
        rw [h2]
        simp only [Bool.false_eq_true, if_false]
        exact ih hasToolUse msgs hbs

/-- Witness for C6 at a concrete input: a text block and a shell invocation
precede the `finished` invocation; a sed invocation follows it. -/
theorem finished_stops_dispatch_witness :
    ((mkToolUseBlock ("id2", "finished", Json.null)).blockType = "tool_use" ∧
      (mkToolUseBlock ("id2", "finished", Json.null)).name = "finished") ∧
    (∀ b ∈ [mkTextBlock "working", mkToolUseBlock ("id1", "shellCommand", Json.null)],
      ¬(b.blockType = "tool_use" ∧ b.name = "finished")) ∧
    dispatchBlocks (fun _ => some (ToolResult.mk "tool_result" "id1" "ok"))
      ([mkTextBlock "working", mkToolUseBlock ("id1", "shellCommand", Json.null)] ++
        mkToolUseBlock ("id2", "finished", Json.null) ::
          [mkToolUseBlock ("id3", "sed", Json.null)])
      false [] = .finishedRun := by
  refine ⟨⟨rfl, rfl⟩, ?_, ?_⟩
  · intro b hb
    simp only [List.mem_cons, List.not_mem_nil, or_false] at hb
    rcases hb with h | h <;> subst h <;> simp [mkTextBlock, mkToolUseBlock]
  · refine finished_stops_dispatch (fun _ => some (ToolResult.mk "tool_result" "id1" "ok"))
      [mkTextBlock "working", mkToolUseBlock ("id1", "shellCommand", Json.null)]
      [mkToolUseBlock ("id3", "sed", Json.null)]
      (mkToolUseBlock ("id2", "finished", Json.null)) false []
      ⟨rfl, rfl⟩ ?_
    intro b hb
    simp only [List.mem_cons, List.not_mem_nil, or_false] at hb
    rcases hb with h | h <;> subst h <;> simp [mkTextBlock, mkToolUseBlock]

/-- First-match characterization of the `updateTodoItem` rewrite loop
(main.go:666-678): when line `i` is the first line that contains the searched
text with a checkbox marker, the loop rewrites exactly line `i` to its marker
followed by the new text. -/
theorem updateLines_eq_set (old new : String) :
    ∀ (lines : List String) (i : Nat), i < lines.length →
    todoLineMatches old (lines.getD i "") = true →
    (∀ j, j < i → todoLineMatches old (lines.getD j "") = false) →
    updateLines old new lines = some (lines.set i (todoMarker (lines.getD i "") ++ new)) := by
  intro lines
  induction lines with
  | nil => intro i hi; simp at hi
  | cons l ls ih =>
    intro i hi hmatch hfirst
    cases i with
    | zero =>
      have hm : (strContains l old && (strContains l "- [ ]" || strContains l "- [x]")) = true :=
        hmatch
      rw [updateLines, if_pos hm]
      unfold todoMarker
      by_cases hp : strContains l "- [ ]"
      · simp [hp]
      · simp [hp]
    | succ i' =>
      have hm0 : (strContains l old && (strContains l "- [ ]" || strContains l "- [x]")) = false :=
        hfirst 0 (Nat.succ_pos i')
      have hmatch' : todoLineMatches old (ls.getD i' "") = true := hmatch
      have hfirst' : ∀ j, j < i' → todoLineMatches old (ls.getD j "") = false :=
        fun j hj => hfirst (j + 1) (by omega)
      rw [updateLines, if_neg (by simp [hm0])]
      rw [ih i' (by simpa using hi) hmatch' hfirst']
      simp

/-- Claim C7: for an update argument of the exact form `<old> -> <new>`
(formally: one that splits into exactly `[old, new]`, with both parts
whitespace-trimmed), `updateTodoItem` rewrites the first line that contains
`<old>` and carries a pending or done checkbox marker, replacing that whole
line by its marker followed by `<new>` and leaving every other line
untouched; an argument that does not split into exactly two parts fails with
the format error and leaves the file contents unchanged. -/
theorem updateTodo_spec :
    (∀ (content old new : String) (i : Nat),
      goSplit " -> " (old ++ " -> " ++ new) = [old, new] →
      goTrimSpace old = old → goTrimSpace new = new →
      i < (goSplit "\n" content).length →
      todoLineMatches old ((goSplit "\n" content).getD i "") = true →
      (∀ j, j < i → todoLineMatches old ((goSplit "\n" content).getD j "") = false) →
      updateTodoItem content (old ++ " -> " ++ new) =
        (⟨"Todo item updated successfully", "", 0⟩,
         goJoin "\n" ((goSplit "\n" content).set i
           (todoMarker ((goSplit "\n" content).getD i "") ++ new)))) ∧
    (∀ (content u : String), (goSplit " -> " u).length ≠ 2 →
      updateTodoItem content u =
        (⟨"", "Update format should be: 'old_item -> new_item'", 1⟩, content)) := by
  constructor
  · intro content old new i hsplit hold hnew hi hmatch hfirst
    unfold updateTodoItem
    rw [hsplit]
    simp only [hold, hnew]
    rw [updateLines_eq_set old new (goSplit "\n" content) i hi hmatch hfirst]
  · intro content u hlen
    unfold updateTodoItem
    match h : goSplit " -> " u with
    | [] => rfl
    | [p0] => rfl
    | [p0, p1] => rw [h] at hlen; simp at hlen
    | p0 :: p1 :: p2 :: rest => rfl

/-- Witness for C7 at the spec's Scenario A input: the completed line
`- [x] Task 1` is rewritten to `- [x] Task 1 revised`, and a malformed
argument fails with the format error, leaving the file unchanged. -/
theorem updateTodo_spec_witness :
    (todoLineMatches "Task 1" "- [x] Task 1" = true) ∧
    (goSplit " -> " ("Task 1" ++ " -> " ++ "Task 1 revised") = ["Task 1", "Task 1 revised"]) ∧
    updateTodoItem "# Todo List\n\n- [x] Task 1" "Task 1 -> Task 1 revised" =
      (⟨"Todo item updated successfully", "", 0⟩, "# Todo List\n\n- [x] Task 1 revised") ∧
    ((goSplit " -> " "no arrow here").length ≠ 2) ∧
    updateTodoItem "- [ ] a" "no arrow here" =
      (⟨"", "Update format should be: 'old_item -> new_item'", 1⟩, "- [ ] a") := by
  refine ⟨by decide, by decide, ?_, by decide, ?_⟩
  · have h := updateTodo_spec.1 "# Todo List\n\n- [x] Task 1" "Task 1" "Task 1 revised" 2
      (by decide) (by decide) (by decide) (by decide) (by decide)
      (by intro j hj; interval_cases j <;> decide)
    exact h.trans (by decide)
  · exact updateTodo_spec.2 "- [ ] a" "no arrow here" (by decide)



/-- Claim C9: for every command whose whitespace-separated field list is
empty, the Permission Gate's `promptForCommandExecution` (outside test mode)
and the second variant's `handleBashCommand` index element 0 of the empty
field list and panic with an index-out-of-range runtime error instead of
returning a deny decision; and the length guard on the field list is
unreachable, because whenever it runs the field list is already nonempty. -/
theorem permission_gate_panics_on_empty_command :
    (∀ (allowed : String → Bool) (response instruction command : String),
      goFields command = [] →
      promptForCommandExecution false allowed response instruction command
        = .panicked indexOutOfRange) ∧
    (∀ (allowed : String → Bool) (choice instruction : String) (run : String → String)
       (command : String),
      goFields command = [] →
      handleBashCommand allowed choice instruction run command = .panicked indexOutOfRange) ∧
    (∀ (command b : String) (rest : List String),
      goFields command = b :: rest → ((b :: rest).length == 0) = false) := by
  refine ⟨?_, ?_, ?_⟩
  · intro allowed response instruction command h
    simp [promptForCommandExecution, h]
  · intro allowed choice instruction run command h
    simp [handleBashCommand, h]
  · intro command b rest _
    simp

/-- Witness for C9 at concrete inputs: the empty command and a
whitespace-only command both panic in both variants. -/
theorem permission_gate_panics_on_empty_command_witness :
    (goFields "" = []) ∧
    (goFields "   " = []) ∧
    promptForCommandExecution false (fun _ => false) "y" "" "" = .panicked indexOutOfRange ∧
    handleBashCommand (fun _ => false) "yes" "" (fun _ => "out") "   "
      = .panicked indexOutOfRange :=
  ⟨rfl, rfl,
   permission_gate_panics_on_empty_command.1 (fun _ => false) "y" "" "" rfl,
   permission_gate_panics_on_empty_command.2.1 (fun _ => false) "yes" "" (fun _ => "out")
     "   " rfl⟩

/-- Counterexample to claim C4 as stated: the assistant block sequence
`[Text "a", Text "b"]` is not reproduced by encode-then-decode — the encoder
joins the two text blocks with a newline, so the decode yields the single
block `[Text "a\nb"]`. -/
theorem roundtrip_not_exact :
    roundTripAssistant [mkTextBlock "a", mkTextBlock "b"]
      ≠ [mkTextBlock "a", mkTextBlock "b"] := by
  intro h
  have heval : roundTripAssistant [mkTextBlock "a", mkTextBlock "b"]
      = [mkTextBlock "a\nb"] := rfl
  rw [heval] at h
  have hlen := congrArg List.length h
  simp at hlen

/-- Claim C4 (amended): the protocol adapter round trip reproduces an
assistant message exactly when its blocks are in canonical form — at most one
nonempty text block followed only by tool invocations; the tool invocations'
id, name and arguments are preserved exactly.  In general, text blocks are
joined with newlines and moved before the tool invocations, so other
sequences are not reproduced (see the counterexample).  Encoding a
tool-result message preserves the result correlation id on the wire `tool`
message. -/
theorem roundtrip_canonical_assistant :
    (∀ (t : String), t ≠ "" → ∀ (tus : List (String × String × Json)),
      roundTripAssistant (mkTextBlock t :: tus.map mkToolUseBlock)
        = mkTextBlock t :: tus.map mkToolUseBlock) ∧
    (∀ (tus : List (String × String × Json)),
      roundTripAssistant (tus.map mkToolUseBlock) = tus.map mkToolUseBlock) ∧
    (∀ (rs : List ToolResult) (sys : String),
      convertMessagesToChat [Message.mk "user" (.results rs)] sys
        = ChatMessage.mk "system" sys [] "" ::
          rs.map (fun r => ChatMessage.mk "tool" r.content [] r.toolUseId)) := by
  have hfiltText : ∀ (tus : List (String × String × Json)),
      (tus.map mkToolUseBlock).filter (fun b => b.blockType == "text") = [] := by
    intro tus
    rw [List.filter_map]
    have hcomp : (fun b => b.blockType == "text") ∘ mkToolUseBlock = fun _ => false := by
      funext p
      simp [mkToolUseBlock]
    rw [hcomp]
    simp
  have hfiltTool : ∀ (tus : List (String × String × Json)),
      (tus.map mkToolUseBlock).filter (fun b => b.blockType == "tool_use")
        = tus.map mkToolUseBlock := by
    intro tus
    rw [List.filter_map]
    have hcomp : (fun b => b.blockType == "tool_use") ∘ mkToolUseBlock = fun _ => true := by
      funext p
      simp [mkToolUseBlock]
    rw [hcomp]
    simp
  refine ⟨?_, ?_, ?_⟩
  · intro t ht tus
    unfold roundTripAssistant
    unfold convertAssistantBlocks
    simp only [List.filter_cons]
    rw [hfiltText, hfiltTool]
    simp [convertChoiceToContentBlocks, mkTextBlock, mkToolUseBlock, ht, List.map_map,
      Function.comp, goJoin]
  · intro tus
    unfold roundTripAssistant
    unfold convertAssistantBlocks
    rw [hfiltText, hfiltTool]
    simp [convertChoiceToContentBlocks, mkToolUseBlock, List.map_map, Function.comp]
  · intro rs sys
    simp [convertMessagesToChat, encodeMessage]

/-- Witness for the amended C4 at a concrete input: one nonempty text block
followed by one tool invocation round-trips exactly. -/
theorem roundtrip_canonical_assistant_witness :
    (("hello" : String) ≠ "") ∧
    roundTripAssistant (mkTextBlock "hello" ::
        ([("id1", "shellCommand", Json.jobj [("command", Json.jstr "ls")])].map mkToolUseBlock))
      = mkTextBlock "hello" ::
        ([("id1", "shellCommand", Json.jobj [("command", Json.jstr "ls")])].map mkToolUseBlock) :=
  ⟨by decide, roundtrip_canonical_assistant.1 "hello" (by decide) _⟩


end Agent
